import Mathlib

/-!
# Verification of the HRMS identity and access subsystem

A shallow embedding of the Express/Mongoose HRMS server's auth core:
the `User`/`Company`/`Employee`/`Leave` data model, the login,
password-reset, invitation and status-update controllers, and the role
middleware.  Mongoose documents become Lean structures, the Mongo store
becomes an explicit `DB` value threaded through each operation, and each
controller becomes a pure function from the request's inputs (plus the
nondeterministic data it consumes: current time, freshly generated random
tokens) to an HTTP-level response paired with the successor store.
-/

namespace HRMS

/-! ## Data model (`server/models/*.js`) -/

/-- A persisted `User` document (`models/User.js`).  `status` is the raw
mongoose `Number` field with enum `[1, 2]` (1 = active, 2 = inactive);
`role` is the raw string the code branches on.  `company` is the optional
`ObjectId` reference, modelled as `Option Nat`. -/
structure UserR where
  uid : Nat
  uname : String
  email : String
  password : String
  role : String
  company : Option Nat
  status : Nat
  resetPasswordToken : Option String
  resetPasswordExpire : Option Nat
  deriving Repr, DecidableEq

/-- A persisted `Company` document (`models/Company.js`).  `status` has
enum `[1, 2]` with schema default `1`; `admin` is the optional back
reference to the admin `User`. -/
structure CompanyR where
  cid : Nat
  cname : String
  logo : String
  admin : Option Nat
  status : Nat
  invitationToken : Option String
  invitationExpires : Option Nat
  deriving Repr, DecidableEq

/-- A persisted `Employee` document (`models/Employee.js`). -/
structure EmployeeR where
  eid : Nat
  euser : Nat
  ecompany : Nat
  department : String
  designation : String
  estatus : String
  deriving Repr, DecidableEq

/-- A persisted `Leave` document (the leave schema bundled with the
models).  `lstatus` ranges over `pending`/`approved`/`rejected`. -/
structure LeaveR where
  lid : Nat
  lemployee : Nat
  lcompany : Nat
  startDate : Nat
  endDate : Nat
  reason : String
  lstatus : String
  deriving Repr, DecidableEq

/-- The Mongo store: one collection per model. -/
structure DB where
  users : List UserR
  companies : List CompanyR
  employees : List EmployeeR
  leaves : List LeaveR
  deriving Repr, DecidableEq

def emptyDB : DB := ⟨[], [], [], []⟩

/-- Mongo generates a fresh `_id` on every insert; freshness is modelled
by taking one past the maximum id already present in the collection. -/
def nextUid (db : DB) : Nat := db.users.foldl (fun a u => max a u.uid) 0 + 1

def nextCid (db : DB) : Nat := db.companies.foldl (fun a c => max a c.cid) 0 + 1

/-- The authenticated principal the `protect` middleware attaches to the
request (`req.user`): id, role and tenant reference. -/
structure Principal where
  pid : Nat
  prole : String
  pcompany : Option Nat
  deriving Repr, DecidableEq

/-! ## External collaborators: bcryptjs and jsonwebtoken -/

/-- Model of the external `bcryptjs` library's `hash(plain, salt)`:
real bcrypt output is always a 60-character string beginning with the
algorithm/cost prefix and embedding the salt, from which `compare`
re-derives the digest.  The digest itself is abstracted by a tagged
concatenation padded/truncated to the fixed 60-character length. -/
def bcryptHash (salt plain : String) : String :=
  (("$2b$10$" ++ salt ++ "." ++ plain) ++ String.mk (List.replicate 60 '#')).take 60

/-- The salt segment `compare` extracts from a stored bcrypt string:
the characters after the 7-character `$2b$10$` prefix, up to the tag. -/
def bcryptSaltOf (stored : String) : String :=
  (stored.drop 7).takeWhile (fun c => c != '.')

/-- Model of `bcryptjs`' `compare(plain, stored)`: it re-hashes `plain`
with the salt embedded in `stored` and compares; a stored value that is
not a well-formed 60-character bcrypt string — in particular a stored
plaintext password — never matches (bcryptjs returns `false` outright
when the hash argument is not 60 characters long). -/
def bcryptCompare (plain stored : String) : Bool :=
  stored.length == 60 && stored == bcryptHash (bcryptSaltOf stored) plain

/-- A signed session token: the payload `{ id }`, the issued-at and
expiry claims, and a MAC over all three under the signing secret
(model of a `jsonwebtoken` JWS). -/
structure Jwt where
  sub : Nat
  iat : Nat
  expiry : Nat
  sig : Nat
  deriving Repr, DecidableEq

/-- Model of the HMAC the `jsonwebtoken` library computes over the
payload under the signing secret. -/
def jwtMac (secret : String) (sub iat expiry : Nat) : Nat :=
  (secret.foldl (fun a c => a * 257 + c.toNat) 7) * 1000003 +
    sub * 1009 + iat * 31 + expiry

/-- Model of `jwt.sign(payload, secret, { expiresIn })`: `expiresIn` is
in seconds from the issue time `now`. -/
def jwtSign (secret : String) (now uid expiresIn : Nat) : Jwt :=
  { sub := uid, iat := now, expiry := now + expiresIn,
    sig := jwtMac secret uid now (now + expiresIn) }

/-- Modelled from the spec: the AuthGate's token verification
(`jwt.verify`; the `protect` middleware itself is not among the source
files).  Per the spec it is stateless — a signature check and an expiry
check only, with no store lookup: accordingly it takes no `DB` argument
and resolves the token to the embedded subject id. -/
def jwtVerify (secret : String) (now : Nat) (t : Jwt) : Option Nat :=
  if t.sig == jwtMac secret t.sub t.iat t.expiry && now < t.expiry then
    some t.sub
  else
    none

/-- `generateToken` from `config/jwt.js`:
`jwt.sign({ id }, process.env.JWT_SECRET, { expiresIn: '1d' })`;
`'1d'` is 86400 seconds. -/
def generateToken (secret : String) (now uid : Nat) : Jwt :=
  jwtSign secret now uid 86400

/-! ## `authController.js` -/

/-- Outcome of `login`: the 200 body `{_id, name, email, role, company,
token}`, the 401 `Account is inactive`, the 401 `Invalid credentials`,
or the 500 catch-all. -/
inductive LoginRes where
  | success (uid : Nat) (uname email role : String)
      (company : Option Nat) (token : Jwt)
  | inactive
  | invalid
  | serverError
  deriving Repr, DecidableEq

/-- `exports.login`: look the user up by email; if found and
`matchPassword` (bcrypt compare, abstracted as the `compare` argument)
accepts, reject status ≠ 1 as inactive, otherwise issue a session token;
any other case is `Invalid credentials`.  `jwt.sign` throws when the
secret is absent, which the controller's catch turns into a 500. -/
def login (compare : String → String → Bool) (secret : Option String)
    (now : Nat) (db : DB) (email password : String) : LoginRes :=
  match db.users.find? (fun u => u.email == email) with
  | some u =>
    if compare password u.password then
      if u.status != 1 then
        .inactive
      else
        match secret with
        | some s =>
          .success u.uid u.uname u.email u.role u.company
            (generateToken s now u.uid)
        | none => .serverError
    else
      .invalid
  | none => .invalid

/-- Outcome of `forgotPassword`: 200 `Password reset email sent` or 404
`User not found`. -/
inductive ForgotRes where
  | sent
  | notFound
  deriving Repr, DecidableEq

/-- `exports.forgotPassword`: look the user up by email; unknown emails
get a 404.  Otherwise store a freshly generated reset token (passed in
as `freshTok`, modelling `generateResetToken()`'s random bytes) with a
one-hour expiry (`Date.now() + 3600000`), then send the mail. -/
def forgotPassword (db : DB) (email freshTok : String) (now : Nat) :
    ForgotRes × DB :=
  match db.users.find? (fun u => u.email == email) with
  | none => (.notFound, db)
  | some u =>
    let u2 := { u with resetPasswordToken := some freshTok,
                       resetPasswordExpire := some (now + 3600000) }
    (.sent,
     { db with
        users := db.users.map (fun v => if v.uid == u.uid then u2 else v) })

/-- Outcome of `resetPassword`: 200 `Password reset successful` or 400
`Invalid or expired token`. -/
inductive ResetRes where
  | success
  | invalidToken
  deriving Repr, DecidableEq

/-- The mongo query of `resetPassword`:
`{ resetPasswordToken: token, resetPasswordExpire: { $gt: Date.now() } }`
(a document with no expiry field never satisfies `$gt`). -/
def resetQueryMatch (token : String) (now : Nat) (u : UserR) : Bool :=
  u.resetPasswordToken == some token &&
    (match u.resetPasswordExpire with
     | some e => now < e
     | none => false)

/-- `exports.resetPassword`: find a user by unexpired token, else 400.
On success assign `user.password = password` — the raw request body,
with no hashing (the schema's pre-save hash hook has been removed) —
and clear both token fields. -/
def resetPassword (db : DB) (token password : String) (now : Nat) :
    ResetRes × DB :=
  match db.users.find? (resetQueryMatch token now) with
  | none => (.invalidToken, db)
  | some u =>
    let u2 := { u with password := password,
                       resetPasswordToken := none,
                       resetPasswordExpire := none }
    (.success,
     { db with
        users := db.users.map (fun v => if v.uid == u.uid then u2 else v) })

/-! ## `companyController.js` -/

/-- Outcome of `createCompany`: the 201 with the created company, or the
500 the catch produces when `Company.create` throws (duplicate unique
`name`). -/
inductive CreateCompanyRes where
  | created (c : CompanyR)
  | serverError
  deriving Repr, DecidableEq

/-- `exports.createCompany`: create a `Company` with a freshly generated
invitation token (passed in as `invitationToken`) and a 24-hour expiry
(`Date.now() + 86400000`), then mail the invitation link.  The schema
supplies `status` default `1` and no `admin`; the unique index on `name`
makes a duplicate name throw, caught as a 500. -/
def createCompany (db : DB) (cname logo invitationToken : String)
    (now : Nat) : CreateCompanyRes × DB :=
  if db.companies.any (fun c => c.cname == cname) then
    (.serverError, db)
  else
    let c : CompanyR :=
      { cid := nextCid db, cname := cname, logo := logo, admin := none,
        status := 1,
        invitationToken := some invitationToken,
        invitationExpires := some (now + 86400000) }
    (.created c, { db with companies := db.companies ++ [c] })

/-- The mongo query of `acceptInvitation`:
`{ invitationToken: token, invitationExpires: { $gt: Date.now() } }`. -/
def invitationQueryMatch (token : String) (now : Nat) (c : CompanyR) : Bool :=
  c.invitationToken == some token &&
    (match c.invitationExpires with
     | some e => now < e
     | none => false)

/-- The read step of `acceptInvitation`: the `Company.findOne` by
unexpired invitation token. -/
def acceptFind (db : DB) (token : String) (now : Nat) : Option CompanyR :=
  db.companies.find? (invitationQueryMatch token now)

/-- Outcome of `acceptInvitation`: the 201 `Company activated
successfully` (carrying the new admin user's id), the 400 `Invalid or
expired token`, or the 500 the catch produces when `User.create` throws
(duplicate unique email). -/
inductive AcceptRes where
  | created (adminUid : Nat)
  | invalidToken
  | serverError
  deriving Repr, DecidableEq

/-- The write steps of `acceptInvitation` once the company `c` was
found: `User.create` of the companyadmin (with the raw request-body
password — no hashing happens here), then mutate and `save` the company:
bind `admin`, set `status = 1`, clear both invitation fields.  A
duplicate email makes `User.create` throw, so the catch answers 500 with
the company untouched. -/
def acceptCommit (db : DB) (c : CompanyR) (uname email password : String) :
    AcceptRes × DB :=
  if db.users.any (fun u => u.email == email) then
    (.serverError, db)
  else
    let newUid := nextUid db
    let newUser : UserR :=
      { uid := newUid, uname := uname, email := email, password := password,
        role := "companyadmin", company := some c.cid, status := 1,
        resetPasswordToken := none, resetPasswordExpire := none }
    let c2 : CompanyR :=
      { c with admin := some newUid, status := 1,
               invitationToken := none, invitationExpires := none }
    (.created newUid,
     { db with
        users := db.users ++ [newUser],
        companies :=
          db.companies.map (fun x => if x.cid == c.cid then c2 else x) })

/-- `exports.acceptInvitation` as one request: the `findOne` read
followed by the write steps, both against the same store — the code is a
separate read then write, not one atomic conditional update. -/
def acceptInvitation (db : DB) (token uname email password : String)
    (now : Nat) : AcceptRes × DB :=
  match acceptFind db token now with
  | none => (.invalidToken, db)
  | some c => acceptCommit db c uname email password

/-- Two interleaved `acceptInvitation` requests for the same token in
the schedule `find₁, find₂, commit₁, commit₂`: each request performs its
`findOne` before either has saved, exactly what the non-atomic
read-then-write structure of the controller permits. -/
def acceptTwoInterleaved (db : DB) (token : String) (now : Nat)
    (n1 e1 p1 n2 e2 p2 : String) : AcceptRes × AcceptRes × DB :=
  let f1 := acceptFind db token now
  let f2 := acceptFind db token now
  match f1 with
  | none =>
    match f2 with
    | none => (.invalidToken, .invalidToken, db)
    | some c =>
      let (r2, db2) := acceptCommit db c n2 e2 p2
      (.invalidToken, r2, db2)
  | some c1 =>
    let (r1, db1) := acceptCommit db c1 n1 e1 p1
    match f2 with
    | none => (r1, .invalidToken, db1)
    | some c2 =>
      let (r2, db2) := acceptCommit db1 c2 n2 e2 p2
      (r1, r2, db2)

/-- Outcome of `updateCompanyStatus`: 200, 404 `Company not found`, or
the 500 the catch produces when the save fails mongoose's
`enum [1, 2]` validation of `status`. -/
inductive CompanyStatusRes where
  | ok
  | notFound
  | serverError
  deriving Repr, DecidableEq

/-- `exports.updateCompanyStatus`: find by id, 404 if absent, assign
`company.status = req.body.status` and save (validated against the
schema's `enum [1, 2]`). -/
def updateCompanyStatus (db : DB) (cid newStatus : Nat) :
    CompanyStatusRes × DB :=
  match db.companies.find? (fun c => c.cid == cid) with
  | none => (.notFound, db)
  | some c =>
    if newStatus == 1 || newStatus == 2 then
      (.ok,
       { db with
          companies := db.companies.map
            (fun x => if x.cid == c.cid then { x with status := newStatus }
                      else x) })
    else
      (.serverError, db)

/-- The startup seed in `server.js`: if no user has the superadmin email
yet, create one whose password is bcrypt-hashed (`bcrypt.hash` with a
generated salt) before `User.create` — the only write path that hashes. -/
def createSuperAdmin (db : DB) (salt : String) : DB :=
  if db.users.any (fun u => u.email == "superadmin@gmail.com") then
    db
  else
    { db with
        users := db.users ++
          [{ uid := nextUid db, uname := "Super Admin",
             email := "superadmin@gmail.com",
             password := bcryptHash salt "superadmin@123",
             role := "superadmin", company := none, status := 1,
             resetPasswordToken := none, resetPasswordExpire := none }] }

/-- The process environment the server reads at startup. -/
structure Env where
  jwtSecret : Option String
  port : Option Nat
  deriving Repr, DecidableEq

/-- The `server.js` bootstrap: load the environment, connect, seed the
superadmin, mount the routes and listen.  It performs no check of
`JWT_SECRET` (or any other variable): startup completes — the returned
flag is `true` — whatever the environment holds. -/
def bootstrap (env : Env) (db : DB) (salt : String) : Bool × DB :=
  (true, createSuperAdmin db salt)

/-! ## Role middleware (`middleware/role.js`) -/

/-- `companyAdminOnly`: pass through iff the principal's role is the
string `companyadmin`, else 403 Forbidden. -/
def companyAdminOnly (p : Principal) : Bool :=
  p.prole == "companyadmin"

/-- `superAdminOnly`: pass through iff the principal's role is the
string `superadmin`, else 403 Forbidden. -/
def superAdminOnly (p : Principal) : Bool :=
  p.prole == "superadmin"

/-! ## `userController.js` -/

/-- Outcome of `updateUserStatus`: 200 with the user, 404
`User not found`, 403 `Not authorized`, or the 500 catch (reached e.g.
when the target has no company and `user.company.equals` throws, or when
the save fails the `enum [1, 2]` validation). -/
inductive UserStatusRes where
  | ok
  | notFound
  | forbidden
  | serverError
  deriving Repr, DecidableEq

/-- `exports.updateUserStatus`: find the target by id (404 if absent);
allow superadmin, or companyadmin whose `req.user.company` equals the
target's `user.company` (`ObjectId.equals`; if the target carries no
company the call throws, caught as 500); everyone else gets 403. -/
def updateUserStatus (actor : Principal) (db : DB)
    (targetId newStatus : Nat) : UserStatusRes × DB :=
  match db.users.find? (fun u => u.uid == targetId) with
  | none => (.notFound, db)
  | some u =>
    if actor.prole == "superadmin" then
      if newStatus == 1 || newStatus == 2 then
        (.ok,
         { db with
            users := db.users.map
              (fun v => if v.uid == u.uid then { v with status := newStatus }
                        else v) })
      else
        (.serverError, db)
    else if actor.prole == "companyadmin" then
      match u.company with
      | none => (.serverError, db)
      | some b =>
        if actor.pcompany == some b then
          if newStatus == 1 || newStatus == 2 then
            (.ok,
             { db with
                users := db.users.map
                  (fun v =>
                    if v.uid == u.uid then { v with status := newStatus }
                    else v) })
          else
            (.serverError, db)
        else
          (.forbidden, db)
    else
      (.forbidden, db)

/-- `exports.getUsers`: `User.find({ company: req.user.company })` — a
query scoped to the caller's own company.  When the caller carries no
company (a superadmin), mongoose drops the `undefined` filter and the
query returns every user. -/
def getUsers (actor : Principal) (db : DB) : List UserR :=
  match actor.pcompany with
  | some a => db.users.filter (fun u => u.company == some a)
  | none => db.users

/-- Outcome of `changePassword`: 200, 404 `User not found`, or 400
`Current password is incorrect`. -/
inductive ChangePasswordRes where
  | ok
  | notFound
  | wrongPassword
  deriving Repr, DecidableEq

/-- `exports.changePassword`: find the user by id (404 if absent),
verify the current password with `matchPassword` (abstracted as
`compare`), then assign `user.password = req.body.newPassword` — again
the raw plaintext, with no hashing — and save. -/
def changePassword (compare : String → String → Bool) (db : DB)
    (targetId : Nat) (currentPassword newPassword : String) :
    ChangePasswordRes × DB :=
  match db.users.find? (fun u => u.uid == targetId) with
  | none => (.notFound, db)
  | some u =>
    if !compare currentPassword u.password then
      (.wrongPassword, db)
    else
      (.ok,
       { db with
          users := db.users.map
            (fun v => if v.uid == u.uid then { v with password := newPassword }
                      else v) })

/-! ## `employeeController.js` (route: `protect, companyAdminOnly`) -/

/-- Outcome of `updateEmployeeStatus`: 403 from the route's
`companyAdminOnly` middleware, 404 `Employee not found`, or 200
`Employee status updated`. -/
inductive EmployeeStatusRes where
  | ok
  | notFound
  | forbidden
  deriving Repr, DecidableEq

/-- The `PUT /employees/:id/status` pipeline: `companyAdminOnly`, then
`exports.updateEmployeeStatus` — find the employee by id (404 if
absent), then `User.findByIdAndUpdate(employee.user, { status })`.
No comparison of the employee's company with the caller's, and
`findByIdAndUpdate` runs no enum validation by default. -/
def updateEmployeeStatus (actor : Principal) (db : DB)
    (empId newStatus : Nat) : EmployeeStatusRes × DB :=
  if !companyAdminOnly actor then
    (.forbidden, db)
  else
    match db.employees.find? (fun e => e.eid == empId) with
    | none => (.notFound, db)
    | some e =>
      (.ok,
       { db with
          users := db.users.map
            (fun v => if v.uid == e.euser then { v with status := newStatus }
                      else v) })

/-- `exports.getEmployees`:
`Employee.find({ company: req.user.company })` — scoped to the caller's
company (with the same mongoose `undefined`-filter behaviour). -/
def getEmployees (actor : Principal) (db : DB) : List EmployeeR :=
  match actor.pcompany with
  | some a => db.employees.filter (fun e => e.ecompany == a)
  | none => db.employees

/-- Outcome of `createEmployee`: 403 from the route middleware, 400
`User already exists`, 201 with the employee, or the 500 catch. -/
inductive CreateEmployeeRes where
  | created (newUid newEid : Nat)
  | userExists
  | forbidden
  | serverError
  deriving Repr, DecidableEq

/-- The `POST /employees` pipeline: `companyAdminOnly`, then
`exports.createEmployee` — reject an existing email with 400, then
`User.create` with role `employee`, the caller's company and the raw
request-body password (no hashing), then `Employee.create`.  A caller
without a company makes `Employee.create` fail its required `company`
validation after the user was already inserted. -/
def createEmployee (actor : Principal) (db : DB)
    (uname email password department designation : String) :
    CreateEmployeeRes × DB :=
  if !companyAdminOnly actor then
    (.forbidden, db)
  else if db.users.any (fun u => u.email == email) then
    (.userExists, db)
  else
    let newUid := nextUid db
    let newUser : UserR :=
      { uid := newUid, uname := uname, email := email, password := password,
        role := "employee", company := actor.pcompany, status := 1,
        resetPasswordToken := none, resetPasswordExpire := none }
    match actor.pcompany with
    | none => (.serverError, { db with users := db.users ++ [newUser] })
    | some a =>
      let newEid := db.employees.foldl (fun x e => max x e.eid) 0 + 1
      (.created newUid newEid,
       { db with
          users := db.users ++ [newUser],
          employees := db.employees ++
            [{ eid := newEid, euser := newUid, ecompany := a,
               department := department, designation := designation,
               estatus := "active" }] })

/-! ## `leaveController.js` (status route: `protect, companyAdminOnly`) -/

/-- Outcome of `updateLeaveStatus`: 200 with the leave, 404
`Leave not found`, 403 (`companyAdminOnly` middleware, or the
controller's own role re-check), or the 500 catch when the save fails
the status enum validation. -/
inductive LeaveStatusRes where
  | ok
  | notFound
  | forbidden
  | serverError
  deriving Repr, DecidableEq

/-- The `PUT /leaves/:id/status` pipeline: `companyAdminOnly`, then
`exports.updateLeaveStatus` — find the leave by id (404 if absent),
re-check only the caller's role (`req.user.role !== 'companyadmin'` →
403), then assign and save the status (validated against the enum
`pending/approved/rejected`).  The leave's company is never compared
with the caller's. -/
def updateLeaveStatus (actor : Principal) (db : DB)
    (leaveId : Nat) (newStatus : String) : LeaveStatusRes × DB :=
  if !companyAdminOnly actor then
    (.forbidden, db)
  else
    match db.leaves.find? (fun l => l.lid == leaveId) with
    | none => (.notFound, db)
    | some l =>
      if actor.prole != "companyadmin" then
        (.forbidden, db)
      else if newStatus == "pending" || newStatus == "approved" ||
              newStatus == "rejected" then
        (.ok,
         { db with
            leaves := db.leaves.map
              (fun x => if x.lid == l.lid then { x with lstatus := newStatus }
                        else x) })
      else
        (.serverError, db)

/-- `exports.createLeave`: find the caller's `Employee` record (404 if
absent), then `Leave.create` bound to that employee's company, with the
schema default status `pending`. -/
def createLeave (actor : Principal) (db : DB)
    (startDate endDate : Nat) (reason : String) : Option LeaveR × DB :=
  match db.employees.find? (fun e => e.euser == actor.pid) with
  | none => (none, db)
  | some e =>
    let nl : LeaveR :=
      { lid := db.leaves.foldl (fun a l => max a l.lid) 0 + 1,
        lemployee := e.eid, lcompany := e.ecompany,
        startDate := startDate, endDate := endDate,
        reason := reason, lstatus := "pending" }
    (some nl, { db with leaves := db.leaves ++ [nl] })

/-! ## Reachable states

One inbound request to any of the store-mutating endpoints, with the
nondeterministic data the handler consumes (clock readings, freshly
generated random tokens, the principal the middleware attached) recorded
as constructor arguments.  A reachable state is the fold of a list of
such operations over a start state. -/

inductive Op where
  | opCreateCompany (cname logo invitationToken : String) (now : Nat)
  | opAcceptInvitation (token uname email password : String) (now : Nat)
  | opUpdateCompanyStatus (cid newStatus : Nat)
  | opForgotPassword (email freshTok : String) (now : Nat)
  | opResetPassword (token password : String) (now : Nat)
  | opChangePassword (compare : String → String → Bool)
      (targetId : Nat) (currentPassword newPassword : String)
  | opUpdateUserStatus (actor : Principal) (targetId newStatus : Nat)
  | opUpdateEmployeeStatus (actor : Principal) (empId newStatus : Nat)
  | opUpdateLeaveStatus (actor : Principal) (leaveId : Nat) (newStatus : String)
  | opCreateEmployee (actor : Principal)
      (uname email password department designation : String)
  | opCreateLeave (actor : Principal) (startDate endDate : Nat) (reason : String)
  | opCreateSuperAdmin (salt : String)

/-- The store after one operation (responses discarded). -/
def applyOp (db : DB) : Op → DB
  | .opCreateCompany n l t now => (createCompany db n l t now).snd
  | .opAcceptInvitation t n e p now => (acceptInvitation db t n e p now).snd
  | .opUpdateCompanyStatus c s => (updateCompanyStatus db c s).snd
  | .opForgotPassword e t now => (forgotPassword db e t now).snd
  | .opResetPassword t p now => (resetPassword db t p now).snd
  | .opChangePassword cmp i cp np => (changePassword cmp db i cp np).snd
  | .opUpdateUserStatus a i s => (updateUserStatus a db i s).snd
  | .opUpdateEmployeeStatus a i s => (updateEmployeeStatus a db i s).snd
  | .opUpdateLeaveStatus a i s => (updateLeaveStatus a db i s).snd
  | .opCreateEmployee a n e p d g => (createEmployee a db n e p d g).snd
  | .opCreateLeave a s e r => (createLeave a db s e r).snd
  | .opCreateSuperAdmin salt => createSuperAdmin db salt

/-- The store after a sequence of operations. -/
def applyOps (db : DB) (ops : List Op) : DB := ops.foldl applyOp db

/-- The company-lifecycle invariant tracked through every operation,
for a company id `k` whose invitation has already been redeemed:
every company's status is one of the two schema values 1 and 2, the
company `k` exists, and every record with id `k` has its invitation
token cleared. -/
def companyInv (k : Nat) (db : DB) : Prop :=
  (∀ c ∈ db.companies, c.status = 1 ∨ c.status = 2) ∧
  (∃ c ∈ db.companies, c.cid = k) ∧
  (∀ c ∈ db.companies, c.cid = k → c.invitationToken = none)

instance (k : Nat) (db : DB) : Decidable (companyInv k db) := by
  unfold companyInv
  infer_instance

/-! ## Concrete fixtures -/

/-- A 22-character bcrypt salt. -/
def saltA : String := "abcdefghijklmnopqrstuv"

/-- An active companyadmin with a properly bcrypt-hashed password. -/
def alice : UserR :=
  { uid := 1, uname := "Alice", email := "a@b.com",
    password := bcryptHash saltA "oldpass", role := "companyadmin",
    company := some 1, status := 1,
    resetPasswordToken := none, resetPasswordExpire := none }

def dbAlice : DB := { users := [alice], companies := [], employees := [], leaves := [] }

/-- A company with a pending (unredeemed, unexpired) invitation. -/
def pendCo : CompanyR :=
  { cid := 1, cname := "Acme", logo := "logo.png", admin := none,
    status := 1, invitationToken := some "tok123",
    invitationExpires := some 1000 }

def dbPend : DB := { users := [], companies := [pendCo], employees := [], leaves := [] }

/-- A companyadmin principal bound to company 1. -/
def actorA : Principal := { pid := 9, prole := "companyadmin", pcompany := some 1 }

/-- A user belonging to company 2. -/
def userB : UserR :=
  { uid := 3, uname := "Bob", email := "b@c.com", password := "pwB",
    role := "employee", company := some 2, status := 1,
    resetPasswordToken := none, resetPasswordExpire := none }

/-- An employee record of company 2. -/
def empB : EmployeeR :=
  { eid := 4, euser := 3, ecompany := 2, department := "Sales",
    designation := "Rep", estatus := "active" }

/-- A leave request of company 2. -/
def leaveB : LeaveR :=
  { lid := 7, lemployee := 4, lcompany := 2, startDate := 10, endDate := 20,
    reason := "vacation", lstatus := "pending" }

/-- A store whose only records belong to company 2 — every target is
cross-tenant for `actorA`. -/
def dbCross : DB :=
  { users := [userB],
    companies :=
      [{ cid := 2, cname := "Globex", logo := "g.png", admin := none,
         status := 1, invitationToken := none, invitationExpires := none }],
    employees := [empB], leaves := [leaveB] }

/-! ## Theorems -/

/-- A company whose invitation token is cleared never matches the
invitation query. -/
theorem invitationQueryMatch_false_of_cleared (token : String) (now : Nat)
    (c : CompanyR) (h : c.invitationToken = none) :
    invitationQueryMatch token now c = false := by
  unfold invitationQueryMatch
  rw [h]
  rfl

/-- If no stored user carries reset token `t1`, redeeming `t1` fails
with `InvalidOrExpiredToken`. -/
theorem resetPassword_fails_of_absent_token (db : DB) (t1 pw : String)
    (now : Nat) (h : ∀ v ∈ db.users, v.resetPasswordToken ≠ some t1) :
    (resetPassword db t1 pw now).fst = .invalidToken := by
  unfold resetPassword
  have hn : db.users.find? (resetQueryMatch t1 now) = none := by
    apply List.find?_eq_none.mpr
    intro x hx hmatch
    unfold resetQueryMatch at hmatch
    have h1 := (Bool.and_eq_true _ _).mp hmatch |>.1
    exact h x hx (beq_iff_eq.mp h1)
  rw [hn]

/-- C3: for every stored user record and every supplied (email,
password), login succeeds — returning the principal projection and a
session token — iff a user with that email exists, the supplied password
matches the stored hash, and status is active (1); an unknown email or a
password mismatch yields `InvalidCredentials`, and a matching password
with inactive status yields `AccountInactive`. -/
theorem login_characterization (compare : String → String → Bool)
    (s : String) (now : Nat) (db : DB) (email password : String) :
    (db.users.find? (fun v => v.email == email) = none →
        login compare (some s) now db email password = .invalid) ∧
    (∀ u, db.users.find? (fun v => v.email == email) = some u →
        (compare password u.password = false →
            login compare (some s) now db email password = .invalid) ∧
        (compare password u.password = true → u.status ≠ 1 →
            login compare (some s) now db email password = .inactive) ∧
        (compare password u.password = true → u.status = 1 →
            login compare (some s) now db email password =
              .success u.uid u.uname u.email u.role u.company
                (generateToken s now u.uid))) := by
  constructor
  · intro h
    unfold login
    rw [h]
  · intro u hu
    refine ⟨?_, ?_, ?_⟩
    · intro hc
      unfold login
      rw [hu]
      simp [hc]
    · intro hc hs
      unfold login
      rw [hu]
      simp [hc, hs]
    · intro hc hs
      unfold login
      rw [hu]
      simp [hc, hs]

/-- Witness for C3 at concrete inputs: a wrong password is rejected as
`InvalidCredentials` and the right password on an active account
succeeds with the principal projection and token. -/
theorem login_characterization_witness :
    login (fun a b => a == b) (some "sec") 0
        ⟨[{ alice with password := "pw" }], [], [], []⟩ "a@b.com" "nope" =
      .invalid ∧
    login (fun a b => a == b) (some "sec") 0
        ⟨[{ alice with password := "pw" }], [], [], []⟩ "a@b.com" "pw" =
      .success 1 "Alice" "a@b.com" "companyadmin" (some 1)
        (generateToken "sec" 0 1) :=
  ⟨((login_characterization (fun a b => a == b) "sec" 0
        ⟨[{ alice with password := "pw" }], [], [], []⟩ "a@b.com" "nope").2
      { alice with password := "pw" } (by decide)).1 (by decide),
   ((login_characterization (fun a b => a == b) "sec" 0
        ⟨[{ alice with password := "pw" }], [], [], []⟩ "a@b.com" "pw").2
      { alice with password := "pw" } (by decide)).2.2 (by decide) rfl⟩

/-- C2 (code bug at this input): `acceptInvitation` persists the
caller-supplied plaintext password verbatim — the store after a
successful redemption holds exactly the request-body string `hunter2`
as the new companyadmin's password field. -/
theorem acceptInvitation_persists_plaintext :
    (acceptInvitation dbPend "tok123" "Mallory" "m@x.com" "hunter2" 5).fst =
      .created 1 ∧
    ((acceptInvitation dbPend "tok123" "Mallory" "m@x.com" "hunter2" 5).snd.users.map
        (fun u => u.password)) = ["hunter2"] := by
  decide

/-- C4 (code bug at this input): the password-reset round trip
`requestReset; redeemReset(t, "newpass"); login("a@b.com", "newpass")`
does NOT end in a successful login: `redeemReset` stores the plaintext
`newpass`, and bcrypt's compare of `newpass` against the stored value
`newpass` (not a 60-character bcrypt hash) is false, so login answers
`InvalidCredentials`.  The second redemption of the cleared token does
fail with `InvalidOrExpiredToken`, as claimed. -/
theorem reset_round_trip_login_fails :
    (forgotPassword dbAlice "a@b.com" "rtok" 1000).fst = .sent ∧
    (resetPassword (forgotPassword dbAlice "a@b.com" "rtok" 1000).snd
        "rtok" "newpass" 2000).fst = .success ∧
    login bcryptCompare (some "sec") 3000
        (resetPassword (forgotPassword dbAlice "a@b.com" "rtok" 1000).snd
          "rtok" "newpass" 2000).snd
        "a@b.com" "newpass" = .invalid ∧
    (resetPassword
        (resetPassword (forgotPassword dbAlice "a@b.com" "rtok" 1000).snd
          "rtok" "newpass" 2000).snd
        "rtok" "again" 2500).fst = .invalidToken := by
  decide

/-- C6 amended: `requestReset` answers 404 `User not found` exactly when
no user carries the submitted email, and 200 `Password reset email sent`
otherwise — the response therefore reveals whether the email exists. -/
theorem forgotPassword_response_reveals_existence
    (db : DB) (email freshTok : String) (now : Nat) :
    (forgotPassword db email freshTok now).fst = ForgotRes.notFound ↔
      db.users.find? (fun u => u.email == email) = none := by
  unfold forgotPassword
  cases h : db.users.find? (fun u => u.email == email) <;> simp

/-- C6 counterexample: two concrete emails, one stored and one unknown,
receive observably different responses (200-sent versus 404-not-found)
from `requestReset`. -/
theorem forgotPassword_not_uniform :
    (forgotPassword dbAlice "a@b.com" "t1" 0).fst = ForgotRes.sent ∧
    (forgotPassword dbAlice "zz@q.com" "t1" 0).fst = ForgotRes.notFound ∧
    ForgotRes.sent ≠ ForgotRes.notFound := by
  decide

/-- C8: `generateToken` embeds exactly the given subject id and a fixed
expiry of 24 hours (86400 seconds, `expiresIn: '1d'`) past issuance, and
the token verifies with the signature-plus-expiry check alone —
`jwtVerify` takes no store argument — resolving back to the subject. -/
theorem generateToken_embeds_subject_and_24h_expiry
    (secret : String) (now uid : Nat) :
    (generateToken secret now uid).sub = uid ∧
    (generateToken secret now uid).expiry = now + 86400 ∧
    (∀ t, t < now + 86400 →
        jwtVerify secret t (generateToken secret now uid) = some uid) := by
  refine ⟨rfl, rfl, ?_⟩
  intro t ht
  unfold jwtVerify generateToken jwtSign
  simp [ht]

/-- Witness for C8 at concrete inputs. -/
theorem generateToken_witness :
    jwtVerify "sec" 5 (generateToken "sec" 0 42) = some 42 :=
  (generateToken_embeds_subject_and_24h_expiry "sec" 0 42).2.2 5 (by decide)

/-- C9 amended: the bootstrap performs no check of the signing secret —
startup completes whatever the environment holds — and with the secret
absent, token issuance instead fails at call time: a login with correct
credentials on an active account answers the 500 catch-all. -/
theorem bootstrap_ignores_missing_secret
    (env : Env) (db : DB) (salt : String)
    (compare : String → String → Bool) (now : Nat) (db2 : DB)
    (email password : String) (u : UserR)
    (hu : db2.users.find? (fun v => v.email == email) = some u)
    (hc : compare password u.password = true)
    (hs : u.status = 1) :
    (bootstrap env db salt).fst = true ∧
    login compare none now db2 email password = .serverError := by
  refine ⟨rfl, ?_⟩
  unfold login
  rw [hu]
  simp [hc, hs]

/-- Witness for C9's amended statement at concrete inputs. -/
theorem bootstrap_ignores_missing_secret_witness :
    (bootstrap ⟨some "sec", some 5000⟩ emptyDB "s").fst = true ∧
    login (fun _ _ => true) none 0 dbAlice "a@b.com" "anything" =
      .serverError :=
  bootstrap_ignores_missing_secret ⟨some "sec", some 5000⟩ emptyDB "s"
    (fun _ _ => true) 0 dbAlice "a@b.com" "anything" alice (by rfl) rfl rfl

/-- C9 counterexample: with no signing secret configured (and no port),
initialization still completes — the claim that startup aborts is false
of the code, which never reads `JWT_SECRET` at startup. -/
theorem bootstrap_without_secret_completes :
    (bootstrap ⟨none, none⟩ emptyDB "abcdefghijklmnopqrstuv").fst = true :=
  rfl

/-- C1 counterexample: two interleaved redemptions of the same
invitation token, each performing its `findOne` before either has saved,
BOTH answer 201 — the validity check and the clearing are a separate
read and write, not one atomic transition, so the at-most-one-winner
guarantee fails under interleaving. -/
theorem acceptInvitation_interleaved_double_success :
    (acceptTwoInterleaved dbPend "tok123" 5
        "A" "a1@x.com" "p1" "B" "b2@x.com" "p2").fst =
      AcceptRes.created 1 ∧
    (acceptTwoInterleaved dbPend "tok123" 5
        "A" "a1@x.com" "p1" "B" "b2@x.com" "p2").snd.fst =
      AcceptRes.created 2 := by
  decide

/-- C1 amended: sequentially, an invitation token is single-use — after
a successful `acceptInvitation` (which created the companyadmin, bound
it as the company's admin and cleared the token fields), every
subsequent `acceptInvitation` with the same token fails with
`InvalidOrExpiredToken`, provided the token identified a single company
(invitation tokens are generated fresh per company). -/
theorem acceptInvitation_sequentially_single_use
    (db : DB) (token uname email password : String) (now : Nat)
    (r : AcceptRes) (db1 : DB)
    (huniq : ∀ x ∈ db.companies, ∀ y ∈ db.companies,
        x.invitationToken = some token → y.invitationToken = some token →
        x.cid = y.cid)
    (hrun : acceptInvitation db token uname email password now = (r, db1))
    (hok : ∃ w, r = AcceptRes.created w)
    (uname2 email2 password2 : String) (now2 : Nat) :
    (acceptInvitation db1 token uname2 email2 password2 now2).fst =
      AcceptRes.invalidToken := by
  obtain ⟨w, rfl⟩ := hok
  unfold acceptInvitation at hrun ⊢
  cases hfind : acceptFind db token now with
  | none =>
    rw [hfind] at hrun
    simp at hrun
  | some c =>
    rw [hfind] at hrun
    have hrun2 : acceptCommit db c uname email password =
        (AcceptRes.created w, db1) := hrun
    clear hrun
    unfold acceptCommit at hrun2
    have hcmem : c ∈ db.companies := List.mem_of_find?_eq_some hfind
    have hcmatch : invitationQueryMatch token now c = true :=
      List.find?_some hfind
    have hctok : c.invitationToken = some token := by
      unfold invitationQueryMatch at hcmatch
      exact beq_iff_eq.mp ((Bool.and_eq_true _ _).mp hcmatch).1
    by_cases hdup : (db.users.any (fun u => u.email == email)) = true
    · rw [if_pos hdup] at hrun2
      simp at hrun2
    · rw [if_neg hdup] at hrun2
      have hdb1 : db1 =
          { db with
              users := db.users ++
                [{ uid := nextUid db, uname := uname, email := email,
                   password := password, role := "companyadmin",
                   company := some c.cid, status := 1,
                   resetPasswordToken := none, resetPasswordExpire := none }],
              companies := db.companies.map
                (fun x => if x.cid == c.cid then
                    { c with admin := some (nextUid db), status := 1,
                             invitationToken := none,
                             invitationExpires := none }
                  else x) } := by
        have := congrArg Prod.snd hrun2
        exact this.symm
      have hnone : acceptFind db1 token now2 = none := by
        unfold acceptFind
        apply List.find?_eq_none.mpr
        intro x hx
        rw [hdb1] at hx
        simp only [List.mem_map] at hx
        obtain ⟨y, hy, hfy⟩ := hx
        by_cases hcid : (y.cid == c.cid) = true
        · rw [if_pos hcid] at hfy
          subst hfy
          intro hmatch
          rw [invitationQueryMatch_false_of_cleared token now2 _ rfl] at hmatch
          cases hmatch
        · rw [if_neg hcid] at hfy
          subst hfy
          intro hmatch
          unfold invitationQueryMatch at hmatch
          have hytok : y.invitationToken = some token :=
            beq_iff_eq.mp ((Bool.and_eq_true _ _).mp hmatch).1

          exact hcid (beq_iff_eq.mpr (huniq y hy c hcmem hytok hctok))
      rw [hnone]

/-- Witness for C1's amended statement: a concrete successful redemption
followed by a second attempt with the same token, which fails 400. -/
theorem acceptInvitation_sequentially_single_use_witness :
    (acceptInvitation (acceptInvitation dbPend "tok123" "A" "a1@x.com" "p1" 5).snd
        "tok123" "B" "b2@x.com" "p2" 6).fst = AcceptRes.invalidToken :=
  acceptInvitation_sequentially_single_use dbPend "tok123" "A" "a1@x.com" "p1" 5
    (acceptInvitation dbPend "tok123" "A" "a1@x.com" "p1" 5).fst
    (acceptInvitation dbPend "tok123" "A" "a1@x.com" "p1" 5).snd
    (by decide) rfl ⟨1, by decide⟩ "B" "b2@x.com" "p2" 6

/-- C10: a successful second `requestReset` overwrites the previously
stored reset token, so redeeming the earlier token `t1` — even while
otherwise unexpired — fails with `InvalidOrExpiredToken`.  Hypotheses:
`t1` was not already stored on some user before the round (reset tokens
are freshly generated random strings), stored emails are unique (the
schema's unique index), and the two generated tokens differ. -/
theorem forgotPassword_overwrites_previous_token
    (db : DB) (email t1 t2 password : String) (now1 now2 now3 : Nat)
    (hfresh : ∀ v ∈ db.users, v.resetPasswordToken ≠ some t1)
    (hemail : ∀ v ∈ db.users, ∀ w ∈ db.users, v.email = w.email → v.uid = w.uid)
    (hne : t1 ≠ t2) :
    (resetPassword
        (forgotPassword (forgotPassword db email t1 now1).snd email t2 now2).snd
        t1 password now3).fst = ResetRes.invalidToken := by
  cases hf : db.users.find? (fun u => u.email == email) with
  | none =>
    have h1 : (forgotPassword db email t1 now1).snd = db := by
      unfold forgotPassword
      rw [hf]
    have h2 : (forgotPassword db email t2 now2).snd = db := by
      unfold forgotPassword
      rw [hf]
    rw [h1, h2]
    exact resetPassword_fails_of_absent_token db t1 password now3 hfresh
  | some u =>
    have humem : u ∈ db.users := List.mem_of_find?_eq_some hf
    have huemail : (u.email == email) = true := by
      simpa using List.find?_some hf
    have h1 : (forgotPassword db email t1 now1).snd =
        { db with users := db.users.map (fun v =>
            if v.uid == u.uid then
              { u with resetPasswordToken := some t1,
                       resetPasswordExpire := some (now1 + 3600000) }
            else v) } := by
      unfold forgotPassword
      rw [hf]
    set u2 : UserR :=
      { u with resetPasswordToken := some t1,
               resetPasswordExpire := some (now1 + 3600000) } with hu2
    set g : UserR → UserR :=
      (fun v => if v.uid == u.uid then u2 else v) with hg
    rw [h1]
    -- the second request finds some user `w`, necessarily with `u`'s id
    cases hf2 : (db.users.map g).find? (fun v => v.email == email) with
    | none =>
      exfalso
      have : u2 ∈ db.users.map g := by
        apply List.mem_map.mpr
        exact ⟨u, humem, by simp [hg]⟩
      have := List.find?_eq_none.mp hf2 u2 this
      exact this (by simpa [hu2] using huemail)
    | some w =>
      have hwmem : w ∈ db.users.map g := List.mem_of_find?_eq_some hf2
      have hwemail : (w.email == email) = true := by
        simpa using List.find?_some hf2
      obtain ⟨z0, hz0, hgz0⟩ := List.mem_map.mp hwmem
      have hgz0b : (if (z0.uid == u.uid) = true then u2 else z0) = w := hgz0
      have hwuid : w.uid = u.uid := by
        by_cases hz : (z0.uid == u.uid) = true
        · rw [if_pos hz] at hgz0b
          rw [← hgz0b]
        · rw [if_neg hz] at hgz0b
          subst hgz0b
          exact hemail z0 hz0 u humem
            ((beq_iff_eq.mp hwemail).trans (beq_iff_eq.mp huemail).symm)
      have h2 : (forgotPassword
          { db with users := db.users.map g } email t2 now2).snd =
          { db with users := (db.users.map g).map (fun v =>
              if v.uid == w.uid then
                { w with resetPasswordToken := some t2,
                         resetPasswordExpire := some (now2 + 3600000) }
              else v) } := by
        unfold forgotPassword
        rw [hf2]
      rw [h2]
      apply resetPassword_fails_of_absent_token
      intro x hx
      simp only [List.mem_map] at hx
      obtain ⟨y, hy, hfy⟩ := hx
      obtain ⟨z, hz, hgz⟩ := hy
      by_cases hyw : (y.uid == w.uid) = true
      · rw [if_pos hyw] at hfy
        subst hfy
        intro hcontra
        exact hne (Option.some.inj hcontra).symm
      · rw [if_neg hyw] at hfy
        subst hfy
        have hgzb : (if (z.uid == u.uid) = true then u2 else z) = y := hgz
        by_cases hzu : (z.uid == u.uid) = true
        · exfalso
          rw [if_pos hzu] at hgzb
          apply hyw
          rw [← hgzb]
          exact beq_iff_eq.mpr (by rw [hwuid])
        · rw [if_neg hzu] at hgzb
          subst hgzb
          exact hfresh z hz

/-- Witness for C10 at concrete inputs: after two reset requests, the
first token is rejected. -/
theorem forgotPassword_overwrites_previous_token_witness :
    (resetPassword
        (forgotPassword (forgotPassword dbAlice "a@b.com" "t1" 100).snd
          "a@b.com" "t2" 200).snd
        "t1" "npw" 300).fst = ResetRes.invalidToken :=
  forgotPassword_overwrites_previous_token dbAlice "a@b.com" "t1" "t2" "npw"
    100 200 300 (by decide) (by decide) (by decide)

/-- C5 counterexample: a companyadmin bound to company 1 updates a leave
belonging to company 2 and the call succeeds (200, record mutated)
instead of being denied with `Forbidden` — `updateLeaveStatus` checks
only the caller's role, never the target's company. -/
theorem crossTenant_leave_update_not_denied :
    actorA.prole = "companyadmin" ∧ actorA.pcompany = some 1 ∧
    leaveB.lcompany = 2 ∧
    (updateLeaveStatus actorA dbCross 7 "approved").fst = LeaveStatusRes.ok ∧
    ((updateLeaveStatus actorA dbCross 7 "approved").snd.leaves.map
        (fun l => l.lstatus)) = ["approved"] := by
  decide

/-- C5 amended: `updateUserStatus` does deny a companyadmin whose
company differs from the target's ( `Forbidden` 403), and
`getUsers`/`getEmployees` only ever return records of the caller's own
company; but `updateLeaveStatus` and `updateEmployeeStatus` check only
that the caller's role is companyadmin and succeed on any existing
target, regardless of the target's company. -/
theorem tenant_scoping_characterization (db : DB) (actor : Principal) :
    (∀ targetId newStatus u b,
        actor.prole = "companyadmin" →
        db.users.find? (fun v => v.uid == targetId) = some u →
        u.company = some b → actor.pcompany ≠ some b →
        (updateUserStatus actor db targetId newStatus).fst =
          UserStatusRes.forbidden) ∧
    (∀ a, actor.pcompany = some a →
        ∀ u ∈ getUsers actor db, u.company = some a) ∧
    (∀ a, actor.pcompany = some a →
        ∀ e ∈ getEmployees actor db, e.ecompany = a) ∧
    (∀ leaveId l, actor.prole = "companyadmin" →
        db.leaves.find? (fun x => x.lid == leaveId) = some l →
        (updateLeaveStatus actor db leaveId "approved").fst =
          LeaveStatusRes.ok) ∧
    (∀ empId e, actor.prole = "companyadmin" →
        db.employees.find? (fun x => x.eid == empId) = some e →
        (updateEmployeeStatus actor db empId 2).fst =
          EmployeeStatusRes.ok) := by
  have hsup : (("companyadmin" : String) == "superadmin") = false := by decide
  have hca : (("companyadmin" : String) == "companyadmin") = true := by decide
  refine ⟨?_, ?_, ?_, ?_, ?_⟩
  · intro targetId newStatus u b hrole hfind hcomp hne
    have hpc : (actor.pcompany == some b) = false := beq_eq_false_iff_ne.mpr hne
    simp [updateUserStatus, hfind, hrole, hcomp, hpc, hsup, hca]
  · intro a ha u hu
    unfold getUsers at hu
    rw [ha] at hu
    exact beq_iff_eq.mp (List.mem_filter.mp hu).2
  · intro a ha e he
    unfold getEmployees at he
    rw [ha] at he
    exact beq_iff_eq.mp (List.mem_filter.mp he).2
  · intro leaveId l hrole hfind
    simp [updateLeaveStatus, companyAdminOnly, hfind, hrole, hca]
  · intro empId e hrole hfind
    simp [updateEmployeeStatus, companyAdminOnly, hfind, hrole, hca]

/-- Witness for C5's amended statement at concrete inputs: the
cross-tenant user update is denied, the cross-tenant employee update
succeeds. -/
theorem tenant_scoping_characterization_witness :
    (updateUserStatus actorA dbCross 3 2).fst = UserStatusRes.forbidden ∧
    (updateEmployeeStatus actorA dbCross 4 2).fst = EmployeeStatusRes.ok :=
  ⟨(tenant_scoping_characterization dbCross actorA).1 3 2 userB 2
      rfl (by decide) rfl (by decide),
   (tenant_scoping_characterization dbCross actorA).2.2.2.2 4 empB
      rfl (by decide)⟩

/-! ### Company-lifecycle invariant lemmas (for C7) -/

theorem foldl_max_cid_init_le (l : List CompanyR) (a : Nat) :
    a ≤ l.foldl (fun b c => max b c.cid) a := by
  induction l generalizing a with
  | nil => exact le_refl a
  | cons y t ih => exact le_trans (le_max_left a y.cid) (ih (max a y.cid))

theorem cid_le_foldl_max (l : List CompanyR) (a : Nat) (x : CompanyR)
    (hx : x ∈ l) : x.cid ≤ l.foldl (fun b c => max b c.cid) a := by
  induction l generalizing a with
  | nil => cases hx
  | cons y t ih =>
    rcases List.mem_cons.mp hx with rfl | hmem
    · exact le_trans (le_max_right a x.cid) (foldl_max_cid_init_le t _)
    · exact ih _ hmem

/-- Every stored company's id is below the next generated one. -/
theorem cid_lt_nextCid (db : DB) (x : CompanyR) (hx : x ∈ db.companies) :
    x.cid < nextCid db :=
  Nat.lt_succ_of_le (cid_le_foldl_max db.companies 0 x hx)

theorem forgotPassword_companies (db : DB) (e t : String) (n : Nat) :
    (forgotPassword db e t n).snd.companies = db.companies := by
  unfold forgotPassword
  repeat' split
  all_goals rfl

theorem resetPassword_companies (db : DB) (t p : String) (n : Nat) :
    (resetPassword db t p n).snd.companies = db.companies := by
  unfold resetPassword
  repeat' split
  all_goals rfl

theorem changePassword_companies (cmp : String → String → Bool) (db : DB)
    (i : Nat) (cp np : String) :
    (changePassword cmp db i cp np).snd.companies = db.companies := by
  unfold changePassword
  repeat' split
  all_goals rfl

theorem updateUserStatus_companies (a : Principal) (db : DB) (i s : Nat) :
    (updateUserStatus a db i s).snd.companies = db.companies := by
  unfold updateUserStatus
  repeat' split
  all_goals rfl

theorem updateEmployeeStatus_companies (a : Principal) (db : DB) (i s : Nat) :
    (updateEmployeeStatus a db i s).snd.companies = db.companies := by
  unfold updateEmployeeStatus
  repeat' split
  all_goals rfl

theorem updateLeaveStatus_companies (a : Principal) (db : DB) (i : Nat)
    (s : String) :
    (updateLeaveStatus a db i s).snd.companies = db.companies := by
  unfold updateLeaveStatus
  repeat' split
  all_goals rfl

theorem createEmployee_companies (a : Principal) (db : DB)
    (n e p d g : String) :
    (createEmployee a db n e p d g).snd.companies = db.companies := by
  unfold createEmployee
  repeat' split
  all_goals rfl

theorem createLeave_companies (a : Principal) (db : DB) (s e : Nat)
    (r : String) :
    (createLeave a db s e r).snd.companies = db.companies := by
  unfold createLeave
  repeat' split
  all_goals rfl

theorem createSuperAdmin_companies (db : DB) (salt : String) :
    (createSuperAdmin db salt).companies = db.companies := by
  unfold createSuperAdmin
  split <;> rfl

/-- One operation preserves the company-lifecycle invariant. -/
theorem companyInv_applyOp (k : Nat) (db : DB) (op : Op)
    (h : companyInv k db) : companyInv k (applyOp db op) := by
  obtain ⟨hstat, hex, hclear⟩ := h
  cases op with
  | opCreateCompany n l t now =>
    show companyInv k (createCompany db n l t now).snd
    unfold createCompany
    by_cases hdup : (db.companies.any (fun c => c.cname == n)) = true
    · rw [if_pos hdup]
      exact ⟨hstat, hex, hclear⟩
    · rw [if_neg hdup]
      refine ⟨?_, ?_, ?_⟩
      · intro c hc
        rcases List.mem_append.mp hc with h1 | h2
        · exact hstat c h1
        · rw [List.mem_singleton.mp h2]
          exact Or.inl rfl
      · obtain ⟨c0, hc0, hk⟩ := hex
        exact ⟨c0, List.mem_append.mpr (Or.inl hc0), hk⟩
      · intro c hc hck
        rcases List.mem_append.mp hc with h1 | h2
        · exact hclear c h1 hck
        · exfalso
          obtain ⟨c0, hc0, hk⟩ := hex
          have hlt : c0.cid < nextCid db := cid_lt_nextCid db c0 hc0
          rw [List.mem_singleton.mp h2] at hck
          simp only at hck
          omega
  | opAcceptInvitation t n e p now =>
    show companyInv k (acceptInvitation db t n e p now).snd
    unfold acceptInvitation
    split
    next => exact ⟨hstat, hex, hclear⟩
    next c hfind =>
      unfold acceptCommit
      split
      next => exact ⟨hstat, hex, hclear⟩
      next hdup =>
        refine ⟨?_, ?_, ?_⟩
        · intro x hx
          obtain ⟨y, hy, hfy⟩ := List.mem_map.mp hx
          by_cases hcid : (y.cid == c.cid) = true
          · rw [if_pos hcid] at hfy
            rw [← hfy]
            exact Or.inl rfl
          · rw [if_neg hcid] at hfy
            rw [← hfy]
            exact hstat y hy
        · obtain ⟨c0, hc0, hk⟩ := hex
          refine ⟨_, List.mem_map_of_mem _ hc0, ?_⟩
          by_cases hcid : (c0.cid == c.cid) = true
          · rw [if_pos hcid]
            simp only
            exact (beq_iff_eq.mp hcid) ▸ hk
          · rw [if_neg hcid]
            exact hk
        · intro x hx hck
          obtain ⟨y, hy, hfy⟩ := List.mem_map.mp hx
          by_cases hcid : (y.cid == c.cid) = true
          · rw [if_pos hcid] at hfy
            rw [← hfy]
          · rw [if_neg hcid] at hfy
            rw [← hfy]
            exact hclear y hy (hfy ▸ hck)
  | opUpdateCompanyStatus cid ns =>
    show companyInv k (updateCompanyStatus db cid ns).snd
    unfold updateCompanyStatus
    split
    next => exact ⟨hstat, hex, hclear⟩
    next c hfind =>
      split
      next hval =>
        refine ⟨?_, ?_, ?_⟩
        · intro x hx
          obtain ⟨y, hy, hfy⟩ := List.mem_map.mp hx
          by_cases hcid : (y.cid == c.cid) = true
          · rw [if_pos hcid] at hfy
            rw [← hfy]
            simp only
            rcases Bool.or_eq_true _ _ |>.mp hval with h1 | h2
            · exact Or.inl (beq_iff_eq.mp h1)
            · exact Or.inr (beq_iff_eq.mp h2)
          · rw [if_neg hcid] at hfy
            rw [← hfy]
            exact hstat y hy
        · obtain ⟨c0, hc0, hk⟩ := hex
          refine ⟨_, List.mem_map_of_mem _ hc0, ?_⟩
          by_cases hcid : (c0.cid == c.cid) = true
          · rw [if_pos hcid]
            exact hk
          · rw [if_neg hcid]
            exact hk
        · intro x hx hck
          obtain ⟨y, hy, hfy⟩ := List.mem_map.mp hx
          by_cases hcid : (y.cid == c.cid) = true
          · rw [if_pos hcid] at hfy
            rw [← hfy]
            simp only
            exact hclear y hy (by rw [← hfy] at hck; exact hck)
          · rw [if_neg hcid] at hfy
            rw [← hfy]
            exact hclear y hy (hfy ▸ hck)
      next hval =>
        exact ⟨hstat, hex, hclear⟩
  | opForgotPassword e t now =>
    show companyInv k (forgotPassword db e t now).snd
    unfold companyInv
    rw [forgotPassword_companies]
    exact ⟨hstat, hex, hclear⟩
  | opResetPassword t p now =>
    show companyInv k (resetPassword db t p now).snd
    unfold companyInv
    rw [resetPassword_companies]
    exact ⟨hstat, hex, hclear⟩
  | opChangePassword cmp i cp np =>
    show companyInv k (changePassword cmp db i cp np).snd
    unfold companyInv
    rw [changePassword_companies]
    exact ⟨hstat, hex, hclear⟩
  | opUpdateUserStatus a i s =>
    show companyInv k (updateUserStatus a db i s).snd
    unfold companyInv
    rw [updateUserStatus_companies]
    exact ⟨hstat, hex, hclear⟩
  | opUpdateEmployeeStatus a i s =>
    show companyInv k (updateEmployeeStatus a db i s).snd
    unfold companyInv
    rw [updateEmployeeStatus_companies]
    exact ⟨hstat, hex, hclear⟩
  | opUpdateLeaveStatus a i s =>
    show companyInv k (updateLeaveStatus a db i s).snd
    unfold companyInv
    rw [updateLeaveStatus_companies]
    exact ⟨hstat, hex, hclear⟩
  | opCreateEmployee a n e p d g =>
    show companyInv k (createEmployee a db n e p d g).snd
    unfold companyInv
    rw [createEmployee_companies]
    exact ⟨hstat, hex, hclear⟩
  | opCreateLeave a s e r =>
    show companyInv k (createLeave a db s e r).snd
    unfold companyInv
    rw [createLeave_companies]
    exact ⟨hstat, hex, hclear⟩
  | opCreateSuperAdmin salt =>
    show companyInv k (createSuperAdmin db salt)
    unfold companyInv
    rw [createSuperAdmin_companies]
    exact ⟨hstat, hex, hclear⟩

/-- Any sequence of operations preserves the company-lifecycle
invariant. -/
theorem companyInv_applyOps (k : Nat) (db : DB) (ops : List Op)
    (h : companyInv k db) : companyInv k (applyOps db ops) := by
  induction ops generalizing db with
  | nil => exact h
  | cons o t ih => exact ih (applyOp db o) (companyInv_applyOp k db o h)

/-- C7 counterexample: the company `createCompany` stores already has
status 1 — the very value `acceptInvitation` assigns when "activating"
(and the value `updateCompanyStatus`/the client treat as active) — and a
successful redemption leaves the status at 1.  There is no distinct
pending status value and no status transition at redemption, refuting
"created in pending status; transitions to active when the token is
redeemed". -/
theorem company_created_with_active_status_value :
    ((createCompany emptyDB "Acme" "logo.png" "tok123" 0).snd.companies.map
        (fun c => c.status)) = [1] ∧
    (acceptInvitation (createCompany emptyDB "Acme" "logo.png" "tok123" 0).snd
        "tok123" "A" "a1@x.com" "p1" 5).fst = AcceptRes.created 1 ∧
    ((acceptInvitation (createCompany emptyDB "Acme" "logo.png" "tok123" 0).snd
        "tok123" "A" "a1@x.com" "p1" 5).snd.companies.map
        (fun c => c.status)) = [1] := by
  decide

/-- C7 amended: every company is created by `createCompany` with
status 1 (the same value the code uses for active — the schema has no
pending value; the pre-redemption state is marked only by the presence
of the invitation token), with no admin bound and the fresh invitation
token stored; and over every reachable sequence of operations, company
statuses stay within the schema enum {1, 2}, and a company whose
invitation token has been cleared never has a token again — the
token-pending state is never re-entered. -/
theorem company_never_returns_to_pending (db : DB) (ops : List Op) (k : Nat)
    (h : companyInv k db) :
    (∀ c ∈ (applyOps db ops).companies, c.status = 1 ∨ c.status = 2) ∧
    (∀ c ∈ (applyOps db ops).companies, c.cid = k → c.invitationToken = none) ∧
    (∀ cname logo tok now r db2,
        createCompany db cname logo tok now = (CreateCompanyRes.created r, db2) →
        r.status = 1 ∧ r.admin = none ∧ r.invitationToken = some tok) := by
  have h2 := companyInv_applyOps k db ops h
  refine ⟨h2.1, h2.2.2, ?_⟩
  intro cname logo tok now r db2 hcc
  unfold createCompany at hcc
  by_cases hdup : (db.companies.any (fun c => c.cname == cname)) = true
  · rw [if_pos hdup] at hcc
    simp at hcc
  · rw [if_neg hdup] at hcc
    have := congrArg Prod.fst hcc
    simp only at this
    cases this
    exact ⟨rfl, rfl, rfl⟩

/-- Witness for C7's amended statement at concrete inputs: after a
superadmin toggles the (already redeemed) company 2 to inactive, its
status is a schema value and its invitation token is still cleared; and
a concrete `createCompany` yields status 1, no admin, the fresh token. -/
theorem company_never_returns_to_pending_witness :
    (({ cid := 2, cname := "Globex", logo := "g.png", admin := none,
        status := 2, invitationToken := none,
        invitationExpires := none } : CompanyR).status = 1 ∨
     ({ cid := 2, cname := "Globex", logo := "g.png", admin := none,
        status := 2, invitationToken := none,
        invitationExpires := none } : CompanyR).status = 2) ∧
    ({ cid := 3, cname := "Initech", logo := "i.png", admin := none,
       status := 1, invitationToken := some "fresh",
       invitationExpires := some 86400000 } : CompanyR).status = 1 ∧
    ({ cid := 3, cname := "Initech", logo := "i.png", admin := none,
       status := 1, invitationToken := some "fresh",
       invitationExpires := some 86400000 } : CompanyR).admin = none ∧
    ({ cid := 3, cname := "Initech", logo := "i.png", admin := none,
       status := 1, invitationToken := some "fresh",
       invitationExpires := some 86400000 } : CompanyR).invitationToken =
      some "fresh" :=
  ⟨(company_never_returns_to_pending dbCross [Op.opUpdateCompanyStatus 2 2] 2
      (by decide)).1 _ (by decide),
   (company_never_returns_to_pending dbCross [Op.opUpdateCompanyStatus 2 2] 2
      (by decide)).2.2 "Initech" "i.png" "fresh" 0
      { cid := 3, cname := "Initech", logo := "i.png", admin := none,
        status := 1, invitationToken := some "fresh",
        invitationExpires := some 86400000 }
      (createCompany dbCross "Initech" "i.png" "fresh" 0).snd (by decide)⟩

end HRMS
